import Mathlib

/-!
Shallow embedding of the bulk-email feature of the CRM repository
(`server/routes/bulkEmailRoutes.js` and the client `BulkEmails` page).

Strings are modelled as `List Char`.  External collaborators (database
lookups, the SMTP transport, the HTML formatter, the attachment
preparation, the logging table) are modelled as oracle functions supplied
in a `Collab` record; everything that the route file itself computes is
translated directly from the source.
-/

namespace BulkEmail

/-- A parsed spreadsheet row, as produced by `XLSX.utils.sheet_to_json`:
an association list from column-header text to cell text, in column order.
`Object.keys` on such a row returns the keys in this order. -/
abbrev Row := List (List Char × List Char)

/-- JavaScript `String.prototype.trim()`: drop leading and trailing
whitespace. -/
def trimChars (s : List Char) : List Char :=
  ((s.dropWhile Char.isWhitespace).reverse.dropWhile Char.isWhitespace).reverse

/-- Split a list at the first occurrence of `t`: returns the part before
and the part after, or `none` when `t` does not occur. -/
def splitFirst (t : Char) : List Char → Option (List Char × List Char)
  | [] => none
  | c :: cs =>
    if c = t then some ([], cs)
    else
      match splitFirst t cs with
      | some (pre, post) => some (c :: pre, post)
      | none => none

/-- A character allowed by the `[^\s@]` class of the e-mail regex. -/
def okChar (c : Char) : Bool := !c.isWhitespace && !(c == '@')

/-- `hasDotNotLast cs` holds when `cs` contains a `'.'` that is not its
last element: with a nonempty prefix prepended this is exactly the
`[^\s@]+\.[^\s@]+` decomposition of the domain part. -/
def hasDotNotLast : List Char → Bool
  | [] => false
  | [_] => false
  | c :: rest => c == '.' || hasDotNotLast rest

/-- `isValidEmail` from `bulkEmailRoutes.js` lines 119-123: the address is
trimmed and tested against `/^[^\s@]+@[^\s@]+\.[^\s@]+$/`.  The regex
forces: a nonempty local part without whitespace or `'@'`, a single `'@'`
(the classes exclude a second one), and a domain part, also nonempty and
without whitespace or `'@'`, that decomposes as `X ++ "." ++ Y` with `X`
and `Y` nonempty, i.e. contains an interior dot. -/
def isValidEmail (email : List Char) : Bool :=
  let t := trimChars email
  match splitFirst '@' t with
  | none => false
  | some (l, d) =>
    !l.isEmpty && l.all okChar && d.all okChar &&
      (match d with
       | [] => false
       | _ :: rest => hasDotNotLast rest)

/-- JavaScript `String.prototype.toLowerCase()` on a header. -/
def toLowerChars (s : List Char) : List Char := s.map Char.toLower

/-- The header predicate of `findEmailColumn` (lines 96-99):
`key.toLowerCase().trim()` equals `"email"` or `"e-mail"`. -/
def isEmailHeaderKey (k : List Char) : Bool :=
  let n := trimChars (toLowerChars k)
  n == "email".toList || n == "e-mail".toList

/-- `findEmailColumn` from `bulkEmailRoutes.js` lines 93-101:
`Object.keys(row).find(...)`, i.e. the first header of the row matching
the predicate, or `null`. -/
def findEmailColumn (row : Row) : Option (List Char) :=
  (row.map Prod.fst).find? isEmailHeaderKey

/-- The literal text `{key}`.  `varPattern`, `replaceAll` and
`replaceTemplateVariables` below form the literal-semantics layer of
the substitution model: the source builds
`new RegExp('\\{' + key + '\\}', 'g')` from the unescaped key and
passes the value to `String.replace` as a raw replacement string, and
this layer is faithful to that exactly for keys free of regex
metacharacters and values free of `'$'`
(`replaceTemplateVariablesJS_agrees` below proves the agreement with
the regex-faithful layer on that domain).  The loop embedding uses this
layer — none of its claims inspect the substituted text — while the
substitution claims themselves are settled against the regex-faithful
`replaceTemplateVariablesJS`. -/
def varPattern (k : List Char) : List Char := '{' :: (k ++ ['}'])

/-- One global, left-to-right, non-overlapping replacement pass of
`String.prototype.replace(/pat/g, val)`: on a match the matched text is
consumed and scanning resumes after the inserted value (the replacement
is not rescanned).  The `fuel` argument only forces structural
termination; it is always called with `fuel ≥ s.length`, and every step
consumes at least one character, so the `fuel = 0` fallback is never
reached on such calls. -/
def replaceAllGo (pat val : List Char) : Nat → List Char → List Char
  | 0, s => s
  | _ + 1, [] => []
  | fuel + 1, c :: rest =>
    if pat.isPrefixOf (c :: rest) then
      val ++ replaceAllGo pat val fuel (rest.drop (pat.length - 1))
    else
      c :: replaceAllGo pat val fuel rest

/-- `s.replace(new RegExp(pat, 'g'), val)` in the literal-semantics
layer: the pattern matched as literal text, the value inserted
verbatim.  Faithful for metacharacter-free patterns and `'$'`-free
values; see `varPattern`. -/
def replaceAll (s pat val : List Char) : List Char :=
  replaceAllGo pat val s.length s

/-- `replaceTemplateVariables` from `bulkEmailRoutes.js` lines 104-116
in the literal-semantics layer (see `varPattern`; the regex-faithful
version is `replaceTemplateVariablesJS`): `if (!text) return '';` then
for each mapping key, in iteration order, replace every `{key}`
occurrence in the accumulated result with the key's value
(`variables[key] || ''`; the values supplied by the route are the
row's cell strings, on which `|| ''` is the identity). -/
def replaceTemplateVariables (text : List Char) (vars : List (List Char × List Char)) :
    List Char :=
  if text.isEmpty then []
  else vars.foldl (fun result kv => replaceAll result (varPattern kv.1) kv.2) text

/-- An ECMAScript regex SyntaxCharacter: a character that is special
when the unescaped key text is interpolated into
`new RegExp('\\{' + key + '\\}', 'g')`. -/
def regexMeta (c : Char) : Bool :=
  c = '^' || c = '$' || c = '\\' || c = '.' || c = '*' || c = '+' || c = '?' ||
  c = '(' || c = ')' || c = '[' || c = ']' || c = '{' || c = '}' || c = '|'

/-- A key free of regex metacharacters: for such keys the built pattern
`\{key\}` denotes the literal text `{key}`. -/
def plainKey (k : List Char) : Bool := k.all (fun c => !regexMeta c)

/-- The pattern source string the route builds:
`'\\{' + key + '\\}'`, i.e. the characters `\{` + key + `\}`. -/
def buildPatternSrc (k : List Char) : List Char :=
  '\\' :: '{' :: (k ++ ['\\', '}'])

/-- Parse one regex alternative of the modelled fragment as a literal
character sequence, stopping at a top-level `'|'` or the end: an
escaped non-alphanumeric character is an identity escape (the route
itself only generates `\{` and `\}`), an unescaped non-SyntaxCharacter
stands for itself, and anything else — class or assertion escapes such
as `\d`, unescaped SyntaxCharacters such as `(`, `*`, `[` — falls
outside the fragment (`none`). -/
def parseSeq : List Char → Option (List Char × List Char)
  | [] => some ([], [])
  | c :: rest =>
    if c = '|' then some ([], c :: rest)
    else if c = '\\' then
      match rest with
      | [] => none
      | d :: rest2 =>
        if d.isAlphanum then none
        else (parseSeq rest2).map (fun p => (d :: p.1, p.2))
    else if regexMeta c then none
    else (parseSeq rest).map (fun p => (c :: p.1, p.2))

/-- Parse the whole pattern source as an ordered alternation of
nonempty literal sequences (`none` outside the fragment; empty
alternatives are excluded so every match consumes at least one
character).  Fuel as in `replaceAllGo`. -/
def parseAltsGo : Nat → List Char → Option (List (List Char))
  | 0, _ => none
  | fuel + 1, src =>
    match parseSeq src with
    | none => none
    | some (seq, rest) =>
      if seq.isEmpty then none
      else
        match rest with
        | [] => some [seq]
        | _ :: rest2 => (parseAltsGo fuel rest2).map (fun alts => seq :: alts)

/-- The semantics of `new RegExp(src, 'g')` over the modelled fragment:
`some alts` when `src` denotes the ordered alternation of the literal
sequences `alts`, `none` when the constructor throws or the pattern
uses unmodelled syntax. -/
def parseAlts (src : List Char) : Option (List (List Char)) :=
  parseAltsGo src.length src

/-- Try the alternatives in order (as ECMAScript alternation does) at
the current position: the first that is a prefix wins, returning the
matched text and the remainder after it. -/
def firstAltMatch (alts : List (List Char)) (s : List Char) :
    Option (List Char × List Char) :=
  match alts with
  | [] => none
  | a :: more => if a.isPrefixOf s then some (a, s.drop a.length) else firstAltMatch more s

/-- ECMAScript `GetSubstitution` for a replacement string and a
group-free pattern: `$$` inserts `$`, `$&` the matched text, `$`
followed by the character 0x60 the part of the subject before the
match, `$'` the part after it; everything else, `$<digit>` included
(there are no capture groups), is literal. -/
def expandDollar (before matched after : List Char) : List Char → List Char
  | [] => []
  | c :: rest =>
    if c = '$' then
      match rest with
      | [] => ['$']
      | d :: rest2 =>
        if d = '$' then '$' :: expandDollar before matched after rest2
        else if d = '&' then matched ++ expandDollar before matched after rest2
        else if d.toNat = 96 then before ++ expandDollar before matched after rest2
        else if d.toNat = 39 then after ++ expandDollar before matched after rest2
        else '$' :: d :: expandDollar before matched after rest2
    else c :: expandDollar before matched after rest

/-- Global replacement of an alternation of nonempty literal sequences,
as `String.replace(/.../g, repl)` performs it: scan left to right from
the start (`pre` accumulates the subject characters already passed,
for the 0x60 replacement pattern), replace each leftmost match by the
expanded replacement and resume after the match (the inserted text is
not rescanned).  Fuel as in `replaceAllGo`. -/
def jsReplaceAllGo (alts : List (List Char)) (repl : List Char) :
    Nat → List Char → List Char → List Char
  | 0, _, s => s
  | _ + 1, _, [] => []
  | fuel + 1, pre, c :: rest =>
    match firstAltMatch alts (c :: rest) with
    | some (m, after) =>
      expandDollar pre m after repl ++ jsReplaceAllGo alts repl fuel (pre ++ m) after
    | none => c :: jsReplaceAllGo alts repl fuel (pre ++ [c]) rest

/-- `s.replace(new RegExp(src, 'g'), repl)` for a pattern denoting the
alternation `alts`. -/
def jsReplaceAll (alts : List (List Char)) (repl s : List Char) : List Char :=
  jsReplaceAllGo alts repl s.length [] s

/-- `replaceTemplateVariables` from `bulkEmailRoutes.js` lines 104-116,
regex-faithful over the modelled fragment: `if (!text) return '';`
(before any `RegExp` is built), then fold the keys in iteration order,
each step replacing globally with the regex the route builds from the
unescaped key.  `none` when some key's pattern falls outside the
fragment (constructor `SyntaxError` or unmodelled syntax); theorems
only ever use `some` results. -/
def replaceTemplateVariablesJS (text : List Char)
    (vars : List (List Char × List Char)) : Option (List Char) :=
  if text.isEmpty then some []
  else
    vars.foldl
      (fun acc kv =>
        match acc with
        | none => none
        | some result =>
          match parseAlts (buildPatternSrc kv.1) with
          | none => none
          | some alts => some (jsReplaceAll alts kv.2 result))
      (some text)

/-- Modelled from the spec: simultaneous substitution, one pass over the
template, "replace every literal occurrence of `{VariableName}` with the
corresponding value, matched case-sensitively against the mapping keys;
variables absent from the mapping are left as literal text".  Scans left
to right; where the pattern `{k}` of some mapping entry starts, the
entry's value is emitted and the pattern consumed, otherwise the
character is kept.  Fuel as in `replaceAllGo`. -/
def specSimultGo (vars : List (List Char × List Char)) : Nat → List Char → List Char
  | 0, s => s
  | _ + 1, [] => []
  | fuel + 1, c :: rest =>
    match vars.find? (fun kv => (varPattern kv.1).isPrefixOf (c :: rest)) with
    | some kv => kv.2 ++ specSimultGo vars fuel (rest.drop (kv.1.length + 1))
    | none => c :: specSimultGo vars fuel rest

/-- Modelled from the spec: the simultaneous-substitution reference
function compared against the sequential code. -/
def specSimultaneousSubst (vars : List (List Char × List Char)) (s : List Char) : List Char :=
  specSimultGo vars s.length s

/-- `noBracePair s` holds when no `'{'` in `s` is followed (anywhere
later) by a `'}'` — equivalently, `s` contains no `{...}` token: any
`'{'`-before-`'}'` pair contains a minimal such pair, which is a token,
and any token is such a pair. -/
def noBracePair : List Char → Bool
  | [] => true
  | c :: rest => (if c = '{' then !(rest.contains '}') else true) && noBracePair rest

/-- The longest digit prefix consumed by `parseInt(·, 10)` after sign. -/
def leadingDigits (s : List Char) : List Char := s.takeWhile Char.isDigit

/-- Decimal value of a digit string. -/
def digitsToNat (ds : List Char) : Nat :=
  ds.foldl (fun acc c => acc * 10 + (c.toNat - '0'.toNat)) 0

/-- JavaScript `parseInt(s, 10)`: skip leading whitespace, read an
optional sign, then the longest digit prefix; `NaN` (here `none`) when
that prefix is empty.  Trailing characters are ignored, so
`parseInt("12abc", 10) = 12`. -/
def parseIntDec (s : List Char) : Option Int :=
  let t := s.dropWhile Char.isWhitespace
  match t with
  | '-' :: rest =>
    let ds := leadingDigits rest
    if ds.isEmpty then none else some (-(digitsToNat ds : Int))
  | '+' :: rest =>
    let ds := leadingDigits rest
    if ds.isEmpty then none else some (digitsToNat ds : Int)
  | _ =>
    let ds := leadingDigits t
    if ds.isEmpty then none else some (digitsToNat ds : Int)

/-- One step of `bodyHtml.replace(/<[^>]*>/g, '')`: from a `'<'`, the
regex consumes up to and including the next `'>'` (the class `[^>]*`
cannot cross one); a `'<'` with no later `'>'` matches nothing and is
kept together with the rest.  Fuel as in `replaceAllGo`. -/
def stripTagsGo : Nat → List Char → List Char
  | 0, s => s
  | _ + 1, [] => []
  | fuel + 1, c :: rest =>
    if c = '<' then
      match splitFirst '>' rest with
      | some (_, post) => stripTagsGo fuel post
      | none => c :: rest
    else
      c :: stripTagsGo fuel rest

/-- `bodyHtml.replace(/<[^>]*>/g, '')` from line 209. -/
def stripTags (s : List Char) : List Char := stripTagsGo s.length s

/-! ## Data model -/

/-- The key of a `findByPk` call: the handler first calls it with the
request's id string verbatim, then possibly with `parseInt` of it. -/
inductive AccountKey
  | str (s : List Char)
  | num (n : Int)
deriving DecidableEq

/-- The fields of an `EmailAccount` record the route reads.  SMTP
connection details are consumed only by the (external) transport, which
is modelled as an oracle, so they are not repeated here. -/
structure Account where
  id : Int
  name : List Char
  email : List Char
  type : List Char
deriving DecidableEq

/-- The fields of an `EmailTemplate` record the route reads:
`attachments` is `some l` when the stored field is an array, `none` when
it is `null`/not an array (the `Array.isArray` check). -/
structure EmailTemplate where
  attachments : Option (List (List Char))

/-- The argument object of `transporter.sendMail` (lines 307-318).
The source fields `from` and `to` are keywords here, hence `fromAddr`
and `toAddr`. -/
structure MailOptions where
  fromAddr : List Char
  toAddr : List Char
  subject : List Char
  text : List Char
  html : List Char
  attachments : Option (List (List Char))
deriving DecidableEq

/-- A row of `EmailLog.create` (lines 325-332 and 345-352).  `sentAtSet`
records whether `sentAt` was set to the current time or `null`. -/
structure LogEntry where
  emailAccountId : Int
  toAddr : List Char
  subject : List Char
  statusSent : Bool
  sentAtSet : Bool
  error : Option (List Char)
deriving DecidableEq

/-- Observable events of the row loop: a `transporter.sendMail`
invocation for row index `i`, and one 100 ms `setTimeout` pause. -/
inductive Ev
  | attempt (i : Nat)
  | delayStep
deriving DecidableEq

/-- The mutable state of the row loop: `successCount`, `failedCount`,
`errors`, plus the persisted log rows and the event trace. -/
structure LoopState where
  success : Nat
  failed : Nat
  errors : List (List Char)
  logs : List LogEntry
  trace : List Ev
deriving DecidableEq

/-- The loop state at entry of the `for` loop (lines 189-191). -/
def initLoopState : LoopState := ⟨0, 0, [], [], []⟩

/-- The part of the loop state the HTTP response is built from: the
state with the (best-effort, swallowed-on-failure) log rows erased. -/
def respPart (st : LoopState) : LoopState := { st with logs := [] }

/-- The per-request data the loop body reads but never writes. -/
structure LoopCtx where
  send : Nat → MailOptions → Option (List Char)
  logOk : Nat → Bool
  account : Account
  templateAttachments : List (List Char)
  subject : List Char
  bodyHtml : List Char
  formattedBodyHtml : List Char
  finalBodyText : List Char
  emailColumn : List Char
  n : Nat

/-- `recipient[emailColumn]`: the value of the row at the resolved
column header, `none` for a missing property (JS `undefined`). -/
def lookupCol (col : List Char) (row : Row) : Option (List Char) :=
  (row.find? (fun kv => kv.1 = col)).map Prod.snd

/-- The skip condition of lines 288-292:
`!recipientEmail || !isValidEmail(recipientEmail)` — a missing property
and the empty string are both falsy. -/
def rowEmailInvalid (col : List Char) (row : Row) : Bool :=
  match lookupCol col row with
  | none => true
  | some e => e.isEmpty || !isValidEmail e

/-- String interpolation of `recipientEmail`: JS renders `undefined` for
a missing property. -/
def showOptEmail : Option (List Char) → List Char
  | none => "undefined".toList
  | some e => e

/-- The error line of line 290:
`Row ${i + 2}: Invalid or missing email address "${recipientEmail}"`. -/
def invalidEmailMsg (i : Nat) (v : Option (List Char)) : List Char :=
  "Row ".toList ++ (Nat.repr (i + 2)).toList
    ++ ": Invalid or missing email address \"".toList ++ showOptEmail v ++ "\"".toList

/-- The error line of line 340:
`Row ${i + 2} (${recipientEmail}): ${sendError.message}`. -/
def sendFailMsg (i : Nat) (e m : List Char) : List Char :=
  "Row ".toList ++ (Nat.repr (i + 2)).toList ++ " (".toList ++ e ++ "): ".toList ++ m

/-- Lines 296-304: the per-row variables object is the row itself
(`variables[key] = recipient[key] || ''` keeps every cell string), and
the subject is personalized against it. -/
def personalizedSubject (L : LoopCtx) (row : Row) : List Char :=
  replaceTemplateVariables L.subject row

/-- The `mailOptions` object of lines 307-318, for a row whose resolved
e-mail value is `e`. -/
def mailOptionsFor (L : LoopCtx) (row : Row) (e : List Char) : MailOptions :=
  { fromAddr := L.account.name ++ " <".toList ++ L.account.email ++ ">".toList
  , toAddr := trimChars e
  , subject := personalizedSubject L row
  , text := replaceTemplateVariables L.finalBodyText row
  , html := replaceTemplateVariables
      (if L.formattedBodyHtml.isEmpty then L.bodyHtml else L.formattedBodyHtml) row
  , attachments :=
      if L.templateAttachments.isEmpty then none else some L.templateAttachments }

/-- The `EmailLog` row written after a successful send (lines 325-332). -/
def successLog (L : LoopCtx) (row : Row) (e : List Char) : LogEntry :=
  ⟨L.account.id, trimChars e, personalizedSubject L row, true, true, none⟩

/-- The `EmailLog` row written after a failed send (lines 345-352). -/
def failLog (L : LoopCtx) (e m : List Char) : LogEntry :=
  ⟨L.account.id, trimChars e, L.subject, false, false, some m⟩

/-- One iteration of the `for` loop of lines 283-362.  An invalid
address records a failure and `continue`s — skipping the delay.  A valid
address is sent through the transport (`send i opts = none` models a
resolved `sendMail`, `some m` a rejection with message `m`); either way
the matching `EmailLog.create` is attempted (`logOk i` models whether it
resolves) and a failure of it is swallowed.  After the `try`/`catch`,
rows other than the last are followed by the 100 ms delay. -/
def processRow (L : LoopCtx) (i : Nat) (row : Row) (st : LoopState) : LoopState :=
  if rowEmailInvalid L.emailColumn row then
    { st with failed := st.failed + 1
            , errors := st.errors ++ [invalidEmailMsg i (lookupCol L.emailColumn row)] }
  else
    let e := (lookupCol L.emailColumn row).getD []
    let st1 := { st with trace := st.trace ++ [Ev.attempt i] }
    let st2 :=
      match L.send i (mailOptionsFor L row e) with
      | none =>
        let logged :=
          if L.logOk i then { st1 with logs := st1.logs ++ [successLog L row e] } else st1
        { logged with success := logged.success + 1 }
      | some m =>
        let failedSt := { st1 with failed := st1.failed + 1
                                 , errors := st1.errors ++ [sendFailMsg i e m] }
        if L.logOk i then { failedSt with logs := failedSt.logs ++ [failLog L e m] }
        else failedSt
    if i < L.n - 1 then { st2 with trace := st2.trace ++ [Ev.delayStep] } else st2

/-- The whole `for` loop, rows paired with their indices from `i`. -/
def processRows (L : LoopCtx) : Nat → List Row → LoopState → LoopState
  | _, [], st => st
  | i, row :: rest, st => processRows L (i + 1) rest (processRow L i row st)

/-- The trace contribution of one loop iteration: nothing for an invalid
row; a send attempt, followed by one delay unless the row is the file's
last, for a valid row. -/
def rowTraceSeg (L : LoopCtx) (i : Nat) (row : Row) : List Ev :=
  if rowEmailInvalid L.emailColumn row then []
  else Ev.attempt i :: (if i < L.n - 1 then [Ev.delayStep] else [])

/-- Pair list elements with indices counting from `k`. -/
def idxFrom (k : Nat) : List α → List (Nat × α)
  | [] => []
  | a :: as => (k, a) :: idxFrom (k + 1) as

/-! ## The POST /api/bulk-emails/send handler -/

/-- The multipart request body.  `file` is `none` when no file was
uploaded; when present it carries the outcome of the third-party
`XLSX` decode of the upload: `Except.error m` for a decoding exception
with message `m`, `Except.ok rows` for the row array (the size of this
field is the oracle for the external parser; everything `parseFile`
itself adds is in `parseFileM`).  The text fields are `[]` when absent
or empty — both falsy in the source's checks. -/
structure SendRequest where
  file : Option (Except (List Char) (List Row))
  emailAccountId : List Char
  subject : List Char
  bodyHtml : List Char
  bodyText : List Char
  templateId : List Char

/-- The external collaborators of the route, as oracles:
`accountByKey` is `EmailAccount.findByPk`, `templateById` is
`EmailTemplate.findByPk`, `prepareAtts` is
`prepareAttachmentsForSending`, `formatHtml` is `formatEmailHtml`,
`send` is `transporter.sendMail` (`none` = resolved, `some m` = rejected
with message `m`), and `logOk` is whether the row's `EmailLog.create`
resolves. -/
structure Collab where
  accountByKey : AccountKey → Option Account
  templateById : List Char → Option EmailTemplate
  prepareAtts : List (List Char) → List (List Char)
  formatHtml : List Char → List Char
  send : Nat → MailOptions → Option (List Char)
  logOk : Nat → Bool

/-- The double lookup of lines 215-221: `findByPk(emailAccountId)`
verbatim; if it finds nothing and `parseInt(emailAccountId, 10)` is not
`NaN`, `findByPk` again with the parsed number. -/
def resolveAccount (byKey : AccountKey → Option Account) (id : List Char) : Option Account :=
  match byKey (AccountKey.str id) with
  | some a => some a
  | none =>
    match parseIntDec id with
    | some n => byKey (AccountKey.num n)
    | none => none

/-- `parseFile` (lines 58-90) beyond the `XLSX` decode itself: a decode
exception and an empty row array both become
`Failed to parse file: ...` errors. -/
def parseFileM (raw : Except (List Char) (List Row)) : Except (List Char) (List Row) :=
  match raw with
  | .error m => .error ("Failed to parse file: ".toList ++ m)
  | .ok data =>
    if data.isEmpty then
      .error ("Failed to parse file: ".toList ++ "File is empty or has no data rows".toList)
    else .ok data

def msgFileRequired : List Char := "File is required".toList
def msgAccountIdRequired : List Char := "Email account ID is required".toList
def msgSubjectRequired : List Char := "Subject is required".toList
def msgBodyRequired : List Char := "Email body is required".toList
def msgAccountNotFound : List Char := "Email account not found".toList
def msgNoSmtp : List Char := "Selected account does not support SMTP sending".toList
def msgNoRecipients : List Char := "No recipients found in file".toList
def msgEmailColNotFound : List Char :=
  ("Email column not found. Please ensure your file has a column named "
    ++ "\"Email\" (case-insensitive)").toList

/-- `bodyText || (bodyHtml ? bodyHtml.replace(/<[^>]*>/g, '') : '')`
(line 209). -/
def finalBodyTextOf (req : SendRequest) : List Char :=
  if !req.bodyText.isEmpty then req.bodyText
  else if !req.bodyHtml.isEmpty then stripTags req.bodyHtml
  else []

/-- Everything the row loop needs, assembled by the steps before it. -/
structure PreparedBatch where
  account : Account
  templateAttachments : List (List Char)
  recipients : List Row
  emailColumn : List Char
  formattedBodyHtml : List Char
  finalBodyText : List Char
deriving DecidableEq

/-- Lines 194-280 of the handler, in source order: the early-return
validations (`file`, `emailAccountId`, `subject`, body), account
resolution and the SMTP-capability check, the optional template's
attachments, file parsing, the dead `recipients.length === 0` re-check,
e-mail-column resolution, and `formatEmailHtml(bodyHtml || '')`.  An
`Except.error (status, msg)` is the early JSON error response. -/
def preparePipeline (C : Collab) (req : SendRequest) :
    Except (Nat × List Char) PreparedBatch :=
  match req.file with
  | none => .error (400, msgFileRequired)
  | some raw =>
    if req.emailAccountId.isEmpty then .error (400, msgAccountIdRequired)
    else if (trimChars req.subject).isEmpty then .error (400, msgSubjectRequired)
    else
      let finalBodyText := finalBodyTextOf req
      if (trimChars finalBodyText).isEmpty then .error (400, msgBodyRequired)
      else
        match resolveAccount C.accountByKey req.emailAccountId with
        | none => .error (404, msgAccountNotFound)
        | some account =>
          if account.type = "smtp".toList ∨ account.type = "both".toList then
            let templateAttachments :=
              if !req.templateId.isEmpty then
                match C.templateById req.templateId with
                | some t =>
                  match t.attachments with
                  | some l => C.prepareAtts l
                  | none => []
                | none => []
              else []
            match parseFileM raw with
            | .error m => .error (400, m)
            | .ok recipients =>
              match recipients with
              | [] => .error (400, msgNoRecipients)
              | firstRow :: _ =>
                match findEmailColumn firstRow with
                | none => .error (400, msgEmailColNotFound)
                | some emailColumn =>
                  .ok { account := account
                      , templateAttachments := templateAttachments
                      , recipients := recipients
                      , emailColumn := emailColumn
                      , formattedBodyHtml := C.formatHtml req.bodyHtml
                      , finalBodyText := finalBodyText }
          else .error (400, msgNoSmtp)

/-- The loop context for a prepared batch. -/
def mkLoopCtx (C : Collab) (req : SendRequest) (P : PreparedBatch) : LoopCtx :=
  { send := C.send
  , logOk := C.logOk
  , account := P.account
  , templateAttachments := P.templateAttachments
  , subject := req.subject
  , bodyHtml := req.bodyHtml
  , formattedBodyHtml := P.formattedBodyHtml
  , finalBodyText := P.finalBodyText
  , emailColumn := P.emailColumn
  , n := P.recipients.length }

/-- The JSON the route answers with: an early `{ error: msg }` with its
status code, or the final
`{ success, failed, total, errors: errors.length > 0 ? errors : undefined }`. -/
inductive HandlerResponse
  | errorResponse (status : Nat) (msg : List Char)
  | okResponse (success failed total : Nat) (errors : Option (List (List Char)))
deriving DecidableEq

/-- The response together with the side effects of the request: the
`EmailLog` rows written and the send/delay event trace. -/
structure HandlerOutcome where
  response : HandlerResponse
  logs : List LogEntry
  trace : List Ev
deriving DecidableEq

/-- The POST `/send` handler (lines 188-378): run the preparation
pipeline; on an early error answer it with no side effects, otherwise
run the row loop over all recipients and answer the counts. -/
def bulkSendHandler (C : Collab) (req : SendRequest) : HandlerOutcome :=
  match preparePipeline C req with
  | .error (status, msg) => ⟨.errorResponse status msg, [], []⟩
  | .ok P =>
    let L := mkLoopCtx C req P
    let final := processRows L 0 P.recipients initLoopState
    ⟨.okResponse final.success final.failed P.recipients.length
        (if final.errors.isEmpty then none else some final.errors)
    , final.logs, final.trace⟩

/-- Whether a response is the ok-shaped BatchResult. -/
def isOkB : HandlerResponse → Bool
  | .okResponse _ _ _ _ => true
  | .errorResponse _ _ => false

/-- The `total` of an ok response. -/
def totalOf : HandlerResponse → Option Nat
  | .okResponse _ _ t _ => some t
  | .errorResponse _ _ => none

/-! ## Client-side error rendering (BulkEmails page, `part_000`) -/

/-- The trailing `<li>` of the error panel:
`...and ${results.errors.length - 50} more errors`. -/
def moreErrorsLine (n : Nat) : List Char :=
  "...and ".toList ++ (Nat.repr (n - 50)).toList ++ " more errors".toList

/-- The list items the BulkEmails results panel renders (lines 586-595
of the page): `results.errors.slice(0, 50)` and, when
`results.errors.length > 50`, one extra summary item. -/
def renderedErrorItems (errors : List (List Char)) : List (List Char) :=
  errors.take 50 ++ (if errors.length > 50 then [moreErrorsLine errors.length] else [])

/-! ## Concrete instances used by the witnesses -/

/-- A stored SMTP-capable account. -/
def demoAccount : Account := ⟨1, "Ops".toList, "ops@crm.io".toList, "smtp".toList⟩

/-- A database with one account, reachable under the string key `"1"`
and the numeric key `12`. -/
def demoByKey : AccountKey → Option Account
  | AccountKey.str s => if s = "1".toList then some demoAccount else none
  | AccountKey.num n => if n = 12 then some demoAccount else none

/-- Collaborators for the witness runs: the account database above, no
templates, identity attachment/HTML helpers, a transport that always
resolves, logging that always resolves. -/
def demoCollab : Collab :=
  { accountByKey := demoByKey
  , templateById := fun _ => none
  , prepareAtts := fun l => l
  , formatHtml := fun h => h
  , send := fun _ _ => none
  , logOk := fun _ => true }

/-- `demoCollab` with every `EmailLog.create` rejecting. -/
def demoCollabNoLog : Collab := { demoCollab with logOk := fun _ => false }

/-- A two-row upload: a valid address, then a malformed one. -/
def demoRows : List Row :=
  [ [("Email".toList, "a@x.com".toList), ("Name".toList, "Alice".toList)]
  , [("Email".toList, "bad".toList), ("Name".toList, "Bob".toList)] ]

/-- A complete multipart request carrying `demoRows`. -/
def demoReq : SendRequest :=
  { file := some (.ok demoRows)
  , emailAccountId := "1".toList
  , subject := "Hi {Name}".toList
  , bodyHtml := []
  , bodyText := "Hello".toList
  , templateId := [] }

/-- The prepared batch the pipeline produces for `demoReq`. -/
def demoPrepared : PreparedBatch :=
  { account := demoAccount
  , templateAttachments := []
  , recipients := demoRows
  , emailColumn := "Email".toList
  , formattedBodyHtml := []
  , finalBodyText := "Hello".toList }

/-- `demoReq` with an upload whose single row has no e-mail column. -/
def demoReqNoCol : SendRequest :=
  { demoReq with file := some (.ok [[("Name".toList, "Al".toList)]]) }

/-- A loop context over a two-row file (`n = 2`). -/
def demoCtx8 : LoopCtx :=
  { send := fun _ _ => none, logOk := fun _ => true, account := demoAccount
  , templateAttachments := [], subject := "Hi".toList, bodyHtml := []
  , formattedBodyHtml := [], finalBodyText := "Hello".toList
  , emailColumn := "Email".toList, n := 2 }

/-- Two rows: a valid address, then a malformed one. -/
def rows8 : List Row :=
  [[("Email".toList, "a@x.com".toList)], [("Email".toList, "bad".toList)]]

/-- `demoCtx8` with a transport that always rejects with `"boom"`. -/
def demoCtxFail : LoopCtx := { demoCtx8 with send := fun _ _ => some "boom".toList }

/-- The valid first row of `rows8`. -/
def row8a : Row := [("Email".toList, "a@x.com".toList)]

/-- Fifty-one identical error lines. -/
def fiftyOneErrors : List (List Char) := List.replicate 51 "err".toList

/-- Three error lines. -/
def threeErrors : List (List Char) := List.replicate 3 "err".toList

/-! ## Lemmas about substitution -/

theorem varPattern_length (k : List Char) : (varPattern k).length = k.length + 2 := by
  simp [varPattern]

theorem noBracePair_tail {c : Char} {rest : List Char}
    (h : noBracePair (c :: rest) = true) : noBracePair rest = true := by
  simp only [noBracePair, Bool.and_eq_true] at h
  exact h.2

theorem noBracePair_head_brace {rest : List Char}
    (h : noBracePair ('{' :: rest) = true) : rest.contains '}' = false := by
  simp only [noBracePair, Bool.and_eq_true] at h
  simpa using h.1

theorem varPattern_not_prefix {k s : List Char} (h : noBracePair s = true) :
    (varPattern k).isPrefixOf s = false := by
  cases s with
  | nil => rfl
  | cons c rest =>
    by_contra hc
    rw [Bool.not_eq_false, List.isPrefixOf_iff_prefix] at hc
    rcases hc with ⟨tail, htail⟩
    rw [varPattern, List.cons_append] at htail
    injection htail with h1 h2
    cases h1
    have hmem : '}' ∈ rest := by
      rw [← h2]; simp
    have hcont := noBracePair_head_brace h
    simp [List.contains, List.elem_eq_mem, hmem] at hcont

theorem replaceAllGo_eq_specSimultGo_single (k v : List Char) :
    ∀ (fuel : Nat) (s : List Char),
      replaceAllGo (varPattern k) v fuel s = specSimultGo [(k, v)] fuel s := by
  intro fuel
  induction fuel with
  | zero => intro s; rfl
  | succ n ih =>
    intro s
    cases s with
    | nil => rfl
    | cons c rest =>
      rw [replaceAllGo, specSimultGo]
      simp only [List.find?]
      cases hpre : (varPattern k).isPrefixOf (c :: rest) with
      | true =>
        simp only [if_pos rfl, varPattern_length]
        rw [ih]
        norm_num
      | false =>
        simp only [Bool.false_eq_true, if_false]
        rw [ih]

theorem expandDollar_no_dollar (b m a : List Char) :
    ∀ repl : List Char, repl.contains '$' = false → expandDollar b m a repl = repl := by
  intro repl
  induction repl with
  | nil => intro _; rfl
  | cons c rest ih =>
    intro h
    have hc : ¬ c = '$' := by
      intro hc
      subst hc
      simp [List.contains, List.elem_eq_mem] at h
    have hrest : rest.contains '$' = false := by
      simp only [List.contains, List.elem_eq_mem, decide_eq_false_iff_not, List.mem_cons,
        not_or] at h ⊢
      exact h.2
    rw [expandDollar.eq_def]
    dsimp only
    rw [if_neg hc, ih hrest]

theorem parseSeq_plain :
    ∀ k : List Char, plainKey k = true →
      parseSeq (k ++ ['\\', '}']) = some (k ++ ['}'], []) := by
  intro k
  induction k with
  | nil => intro _; rfl
  | cons c k2 ih =>
    intro h
    simp only [plainKey, List.all_cons, Bool.and_eq_true, Bool.not_eq_true'] at h
    obtain ⟨hc, hk2⟩ := h
    have h1 : ¬ c = '|' := by intro he; subst he; simp [regexMeta] at hc
    have h2 : ¬ c = '\\' := by intro he; subst he; simp [regexMeta] at hc
    rw [List.cons_append, parseSeq.eq_def]
    dsimp only
    rw [if_neg h1, if_neg h2, if_neg (by simp [hc]), ih (by simpa [plainKey] using hk2)]
    rfl

theorem parseAlts_plain {k : List Char} (h : plainKey k = true) :
    parseAlts (buildPatternSrc k) = some [varPattern k] := by
  have hps : parseSeq (buildPatternSrc k) = some (varPattern k, []) := by
    rw [buildPatternSrc, parseSeq.eq_def]
    dsimp only
    rw [if_neg (by decide), if_pos rfl, if_neg (by decide), parseSeq_plain k h]
    rfl
  have hlen : (buildPatternSrc k).length = (k.length + 3) + 1 := by
    simp [buildPatternSrc]
  have hgo : ∀ fuel : Nat, parseAltsGo (fuel + 1) (buildPatternSrc k) = some [varPattern k] := by
    intro fuel
    rw [parseAltsGo.eq_def]
    dsimp only
    rw [hps]
    rfl
  rw [parseAlts, hlen]
  exact hgo (k.length + 3)

theorem jsReplaceAllGo_single {p repl : List Char} (hp : p ≠ [])
    (hd : repl.contains '$' = false) :
    ∀ (fuel : Nat) (pre s : List Char),
      jsReplaceAllGo [p] repl fuel pre s = replaceAllGo p repl fuel s := by
  obtain ⟨q, qs, rfl⟩ := List.exists_cons_of_ne_nil hp
  intro fuel
  induction fuel with
  | zero => intro pre s; rfl
  | succ n ih =>
    intro pre s
    cases s with
    | nil => rfl
    | cons c rest =>
      rw [jsReplaceAllGo, replaceAllGo, firstAltMatch]
      cases hpre : (q :: qs).isPrefixOf (c :: rest) with
      | true =>
        simp only [eq_self_iff_true, if_true]
        rw [expandDollar_no_dollar _ _ _ _ hd, ih]
        simp [List.drop_succ_cons]
      | false =>
        simp only [Bool.false_eq_true, if_false]
        rw [ih]
        rfl

theorem jsReplaceAllGo_id_of_noBracePair (k v : List Char) :
    ∀ (fuel : Nat) (pre s : List Char), noBracePair s = true →
      jsReplaceAllGo [varPattern k] v fuel pre s = s := by
  intro fuel
  induction fuel with
  | zero => intro pre s _; rfl
  | succ n ih =>
    intro pre s hs
    cases s with
    | nil => rfl
    | cons c rest =>
      rw [jsReplaceAllGo, firstAltMatch, varPattern_not_prefix hs]
      simp only [Bool.false_eq_true, if_false, firstAltMatch]
      rw [ih (pre ++ [c]) rest (noBracePair_tail hs)]

theorem foldlJS_agrees :
    ∀ (vars : List (List Char × List Char)) (t : List Char),
      (∀ kv ∈ vars, plainKey kv.1 = true) →
      (∀ kv ∈ vars, kv.2.contains '$' = false) →
      vars.foldl
          (fun acc kv =>
            match acc with
            | none => none
            | some result =>
              match parseAlts (buildPatternSrc kv.1) with
              | none => none
              | some alts => some (jsReplaceAll alts kv.2 result))
          (some t)
        = some (vars.foldl (fun result kv => replaceAll result (varPattern kv.1) kv.2) t) := by
  intro vars
  induction vars with
  | nil => intro t _ _; rfl
  | cons kv rest ih =>
    intro t hk hv
    rw [List.foldl_cons, List.foldl_cons]
    have h1 : plainKey kv.1 = true := hk kv (List.mem_cons_self kv rest)
    have h2 : kv.2.contains '$' = false := hv kv (List.mem_cons_self kv rest)
    have hstep :
        (match parseAlts (buildPatternSrc kv.1) with
          | none => none
          | some alts => some (jsReplaceAll alts kv.2 t))
          = some (replaceAll t (varPattern kv.1) kv.2) := by
      rw [parseAlts_plain h1]
      dsimp only
      rw [jsReplaceAll, replaceAll]
      exact congrArg some
        (jsReplaceAllGo_single (by simp [varPattern]) h2 t.length [] t)
    dsimp only
    rw [hstep]
    exact ih _ (fun kv2 hm => hk kv2 (List.mem_cons_of_mem _ hm))
      (fun kv2 hm => hv kv2 (List.mem_cons_of_mem _ hm))

theorem replaceTemplateVariablesJS_agrees (text : List Char)
    (vars : List (List Char × List Char))
    (hk : ∀ kv ∈ vars, plainKey kv.1 = true)
    (hv : ∀ kv ∈ vars, kv.2.contains '$' = false) :
    replaceTemplateVariablesJS text vars = some (replaceTemplateVariables text vars) := by
  rw [replaceTemplateVariablesJS, replaceTemplateVariables]
  by_cases ht : text.isEmpty
  · rw [if_pos ht, if_pos ht]
  · rw [if_neg ht, if_neg ht]
    exact foldlJS_agrees vars text hk hv

theorem foldlJS_id {s : List Char} (h : noBracePair s = true) :
    ∀ vars : List (List Char × List Char), (∀ kv ∈ vars, plainKey kv.1 = true) →
      vars.foldl
          (fun acc kv =>
            match acc with
            | none => none
            | some result =>
              match parseAlts (buildPatternSrc kv.1) with
              | none => none
              | some alts => some (jsReplaceAll alts kv.2 result))
          (some s)
        = some s := by
  intro vars
  induction vars with
  | nil => intro _; rfl
  | cons kv rest ih =>
    intro hk
    rw [List.foldl_cons]
    have h1 : plainKey kv.1 = true := hk kv (List.mem_cons_self kv rest)
    have hstep :
        (match parseAlts (buildPatternSrc kv.1) with
          | none => none
          | some alts => some (jsReplaceAll alts kv.2 s)) = some s := by
      rw [parseAlts_plain h1]
      dsimp only
      rw [jsReplaceAll, jsReplaceAllGo_id_of_noBracePair kv.1 kv.2 s.length [] s h]
    dsimp only
    rw [hstep]
    exact ih (fun kv2 hm => hk kv2 (List.mem_cons_of_mem _ hm))

theorem replaceTemplateVariables_single_eq_spec (s k v : List Char) :
    replaceTemplateVariables s [(k, v)] = specSimultaneousSubst [(k, v)] s := by
  cases s with
  | nil => rfl
  | cons c cs =>
    rw [replaceTemplateVariables, specSimultaneousSubst]
    simp only [List.isEmpty_cons, Bool.false_eq_true, if_false]
    rw [List.foldl_cons, List.foldl_nil, replaceAll]
    exact replaceAllGo_eq_specSimultGo_single k v (c :: cs).length (c :: cs)

/-- Counterexample to claim C7 as stated: the claim quantifies over
every mapping, but the key is interpolated unescaped into the regex,
so the key `a|` yields `/\{a|\}/g`, whose second alternative matches a
lone `}`: the program turns the token-free string `x}` into `xy`
instead of leaving it unchanged. -/
theorem c7_substitution_counterexample :
    noBracePair "x\x7d".toList = true
    ∧ replaceTemplateVariablesJS "x\x7d".toList [("a|".toList, "y".toList)]
        = some "xy".toList
    ∧ some "xy".toList ≠ some "x\x7d".toList :=
  ⟨by decide, by decide, by decide⟩

/-- Claim C7, corrected: for every string containing no `{...}` token
(equivalently, no `'{'` followed by a later `'}'`) and every mapping
whose keys are free of regex metacharacters — so that each built
pattern `\{key\}` denotes the literal text `{key}` — substitution is
the identity; values are unrestricted, since no replacement is ever
performed. -/
theorem c7_substitution_amended (s : List Char) (vars : List (List Char × List Char))
    (h : noBracePair s = true) (hk : ∀ kv ∈ vars, plainKey kv.1 = true) :
    replaceTemplateVariablesJS s vars = some s := by
  rw [replaceTemplateVariablesJS]
  by_cases hs : s.isEmpty
  · rw [if_pos hs]
    cases s with
    | nil => rfl
    | cons c cs => simp at hs
  · rw [if_neg hs]
    exact foldlJS_id h vars hk

/-- Witness for the amended C7 at a concrete brace-free string and a
plain-keyed mapping whose value even uses replacement-pattern
syntax. -/
theorem c7_substitution_amended_witness :
    noBracePair "hello world".toList = true
    ∧ plainKey "A".toList = true
    ∧ replaceTemplateVariablesJS "hello world".toList [("A".toList, "$&".toList)]
        = some "hello world".toList :=
  ⟨by decide, by decide, c7_substitution_amended _ _ (by decide) (by decide)⟩

/-- Claim C2, corrected.  The source substitutes sequentially, one
mapping key at a time over the accumulated result, so the claim's
simultaneous reading holds only in restricted forms.  With the empty
mapping the operation is the identity (in particular
`substitute("Hi {Unknown}", {}) = "Hi {Unknown}"`).  For every
single-variable mapping whose key is free of regex metacharacters (the
unescaped key is interpolated into the `RegExp`) and whose value
contains no `'$'` (`String.replace` replacement-pattern syntax), the
pass coincides exactly with the spec's simultaneous replacement: every
literal `{Key}` occurrence replaced by the value, case-sensitively,
everything else — unknown placeholders included — left unchanged. -/
theorem c2_substitution_amended :
    (∀ s : List Char, replaceTemplateVariablesJS s [] = some s)
    ∧ replaceTemplateVariablesJS "Hi {Unknown}".toList [] = some "Hi {Unknown}".toList
    ∧ ∀ s k v : List Char, plainKey k = true → v.contains '$' = false →
        replaceTemplateVariablesJS s [(k, v)]
          = some (specSimultaneousSubst [(k, v)] s) := by
  refine ⟨?_, by decide, ?_⟩
  · intro s
    rw [replaceTemplateVariablesJS]
    by_cases hs : s.isEmpty
    · rw [if_pos hs]
      cases s with
      | nil => rfl
      | cons c cs => simp at hs
    · rw [if_neg hs]
      rfl
  · intro s k v h1 h2
    rw [← replaceTemplateVariables_single_eq_spec]
    exact replaceTemplateVariablesJS_agrees s [(k, v)]
      (fun kv hm => by rcases List.mem_singleton.mp hm with rfl; exact h1)
      (fun kv hm => by rcases List.mem_singleton.mp hm with rfl; exact h2)

/-- Witness for the amended C2 at a concrete plain key and `$`-free
value. -/
theorem c2_substitution_amended_witness :
    plainKey "Name".toList = true
    ∧ ("Bob".toList.contains '$') = false
    ∧ replaceTemplateVariablesJS "Hi {Name}".toList [("Name".toList, "Bob".toList)]
        = some (specSimultaneousSubst [("Name".toList, "Bob".toList)] "Hi {Name}".toList) :=
  ⟨by decide, by decide, c2_substitution_amended.2.2 _ _ _ (by decide) (by decide)⟩

/-- Counterexample to claim C2 as stated: with the mapping
`A ↦ "{B}", B ↦ "x"` the template `"{A}"` must, per the claim, become
`A`'s mapped value `"{B}"` (the spec's simultaneous reading, second
conjunct); the code instead substitutes the inserted value again and
returns `"x"`. -/
theorem c2_substitution_counterexample :
    replaceTemplateVariablesJS "{A}".toList
        [("A".toList, "{B}".toList), ("B".toList, "x".toList)] = some "x".toList
    ∧ specSimultaneousSubst [("A".toList, "{B}".toList), ("B".toList, "x".toList)]
        "{A}".toList = "{B}".toList
    ∧ some "x".toList ≠ some "{B}".toList :=
  ⟨by decide, by decide, by decide⟩

/-- Claim C9: substitution is sequential, one variable at a time in
mapping order over the accumulated result: with `X ↦ "{Y}"` iterated
before `Y ↦ "done"`, the inserted value `{Y}` is substituted again,
producing a result different from the simultaneous replacement of the
original template. -/
theorem c9_sequential_substitution :
    replaceTemplateVariables "Start {X} End".toList
        [("X".toList, "{Y}".toList), ("Y".toList, "done".toList)]
        = "Start done End".toList
    ∧ specSimultaneousSubst [("X".toList, "{Y}".toList), ("Y".toList, "done".toList)]
        "Start {X} End".toList = "Start {Y} End".toList
    ∧ "Start done End".toList ≠ "Start {Y} End".toList :=
  ⟨by decide, by decide, by decide⟩

/-! ## Client error-list cap -/

/-- Claim C3: the error list the client displays is capped.  With more
than 50 error lines the rendered items are the first 50 followed by one
summary item stating how many more exist — 51 items in all; with 50 or
fewer the full ordered list is rendered. -/
theorem c3_error_list_cap (errors : List (List Char)) :
    (errors.length ≤ 50 → renderedErrorItems errors = errors)
    ∧ (50 < errors.length →
        renderedErrorItems errors = errors.take 50 ++ [moreErrorsLine errors.length]
        ∧ (renderedErrorItems errors).length = 51) := by
  constructor
  · intro h
    rw [renderedErrorItems, if_neg (by omega), List.append_nil, List.take_of_length_le h]
  · intro h
    refine ⟨by rw [renderedErrorItems, if_pos h], ?_⟩
    rw [renderedErrorItems, if_pos h]
    simp only [List.length_append, List.length_take, List.length_cons, List.length_nil]
    omega

/-- Witness for C3 at a 3-element and a 51-element error list. -/
theorem c3_error_list_cap_witness :
    (threeErrors.length ≤ 50 ∧ renderedErrorItems threeErrors = threeErrors)
    ∧ (50 < fiftyOneErrors.length
       ∧ (renderedErrorItems fiftyOneErrors
            = fiftyOneErrors.take 50 ++ [moreErrorsLine fiftyOneErrors.length]
          ∧ (renderedErrorItems fiftyOneErrors).length = 51)) :=
  ⟨⟨by decide, (c3_error_list_cap threeErrors).1 (by decide)⟩,
   ⟨by decide, (c3_error_list_cap fiftyOneErrors).2 (by decide)⟩⟩

/-! ## Lemmas about the row loop -/

theorem processRow_counts (L : LoopCtx) (i : Nat) (row : Row) (st : LoopState) :
    ((processRow L i row st).success = st.success + 1
      ∧ (processRow L i row st).failed = st.failed)
    ∨ ((processRow L i row st).success = st.success
      ∧ (processRow L i row st).failed = st.failed + 1) := by
  rw [processRow]
  by_cases hinv : rowEmailInvalid L.emailColumn row = true
  · rw [if_pos hinv]
    right
    exact ⟨rfl, rfl⟩
  · rw [if_neg hinv]
    cases hsend : L.send i (mailOptionsFor L row ((lookupCol L.emailColumn row).getD [])) with
    | none =>
      cases hlog : L.logOk i <;> by_cases hd : i < L.n - 1 <;>
        simp [hsend, hlog, hd]
    | some m =>
      cases hlog : L.logOk i <;> by_cases hd : i < L.n - 1 <;>
        simp [hsend, hlog, hd]

theorem processRows_counts (L : LoopCtx) :
    ∀ (rows : List Row) (i : Nat) (st : LoopState),
      (processRows L i rows st).success + (processRows L i rows st).failed
        = st.success + st.failed + rows.length := by
  intro rows
  induction rows with
  | nil => intro i st; rfl
  | cons row rest ih =>
    intro i st
    rw [processRows, ih]
    rcases processRow_counts L i row st with ⟨h1, h2⟩ | ⟨h1, h2⟩ <;>
      rw [h1, h2] <;> simp only [List.length_cons] <;> omega

theorem preparePipeline_recipients {C : Collab} {req : SendRequest}
    {raw : Except (List Char) (List Row)} {P : PreparedBatch}
    (hfile : req.file = some raw)
    (h : preparePipeline C req = Except.ok P) :
    parseFileM raw = Except.ok P.recipients := by
  rw [preparePipeline, hfile] at h
  dsimp only at h
  iterate 12 (all_goals try split at h)
  all_goals simp_all
  all_goals (subst h; rfl)

/-- Claim C1: every iteration of the per-row send loop increments
exactly one of the two counters, and every request that reaches the
loop (i.e. is answered with a BatchResult) satisfies
`success + failed = total` with `total` the number of parsed rows. -/
theorem c1_success_failed_total :
    (∀ (L : LoopCtx) (i : Nat) (row : Row) (st : LoopState),
        ((processRow L i row st).success = st.success + 1
          ∧ (processRow L i row st).failed = st.failed)
      ∨ ((processRow L i row st).success = st.success
          ∧ (processRow L i row st).failed = st.failed + 1))
    ∧ ∀ (C : Collab) (req : SendRequest) (raw : Except (List Char) (List Row))
        (rows : List Row) (s f t : Nat) (errs : Option (List (List Char))),
        req.file = some raw →
        parseFileM raw = Except.ok rows →
        (bulkSendHandler C req).response = HandlerResponse.okResponse s f t errs →
        s + f = t ∧ t = rows.length := by
  refine ⟨processRow_counts, ?_⟩
  intro C req raw rows s f t errs hfile hparse hresp
  rcases hp : preparePipeline C req with e | P
  · obtain ⟨status, msg⟩ := e
    rw [bulkSendHandler.eq_def, hp] at hresp
    simp at hresp
  · have hrec := preparePipeline_recipients hfile hp
    rw [hparse] at hrec
    injection hrec with hrec
    rw [bulkSendHandler.eq_def, hp] at hresp
    simp only [HandlerResponse.okResponse.injEq] at hresp
    obtain ⟨hs, hf, ht, _⟩ := hresp
    have hcounts := processRows_counts (mkLoopCtx C req P) P.recipients 0 initLoopState
    constructor
    · rw [← hs, ← hf, ← ht]
      simpa [initLoopState] using hcounts
    · rw [← ht, hrec]

/-- Witness for C1: the demo request is answered
`success = 1, failed = 1, total = 2` over its two parsed rows. -/
theorem c1_success_failed_total_witness :
    (bulkSendHandler demoCollab demoReq).response
      = HandlerResponse.okResponse 1 1 2 (some [invalidEmailMsg 1 (some "bad".toList)])
    ∧ 1 + 1 = 2 ∧ 2 = demoRows.length :=
  ⟨by decide,
   c1_success_failed_total.2 demoCollab demoReq (Except.ok demoRows) demoRows 1 1 2
     (some [invalidEmailMsg 1 (some "bad".toList)]) rfl rfl (by decide)⟩

/-! ## Lemmas about the loop trace and error list -/

theorem processRow_trace (L : LoopCtx) (i : Nat) (row : Row) (st : LoopState) :
    (processRow L i row st).trace = st.trace ++ rowTraceSeg L i row := by
  rw [processRow, rowTraceSeg]
  by_cases hinv : rowEmailInvalid L.emailColumn row = true
  · rw [if_pos hinv, if_pos hinv]
    simp
  · rw [if_neg hinv, if_neg hinv]
    cases hsend : L.send i (mailOptionsFor L row ((lookupCol L.emailColumn row).getD [])) <;>
      cases hlog : L.logOk i <;> by_cases hd : i < L.n - 1 <;>
      simp [hsend, hlog, hd]

theorem processRows_trace (L : LoopCtx) :
    ∀ (rows : List Row) (k : Nat) (st : LoopState),
      (processRows L k rows st).trace
        = st.trace ++ (idxFrom k rows).flatMap (fun p => rowTraceSeg L p.1 p.2) := by
  intro rows
  induction rows with
  | nil => intro k st; simp [processRows, idxFrom]
  | cons row rest ih =>
    intro k st
    rw [processRows, ih, processRow_trace, idxFrom]
    simp [List.append_assoc]

theorem mem_idxFrom {α : Type _} {p : Nat × α} :
    ∀ (l : List α) (k : Nat), p ∈ idxFrom k l →
      ∃ j, l.get? j = some p.2 ∧ p.1 = k + j := by
  intro l
  induction l with
  | nil => intro k h; simp [idxFrom] at h
  | cons a as ih =>
    intro k h
    rw [idxFrom] at h
    rcases List.mem_cons.mp h with h1 | h2
    · subst h1
      exact ⟨0, rfl, rfl⟩
    · rcases ih (k + 1) h2 with ⟨j, hj1, hj2⟩
      exact ⟨j + 1, by simpa using hj1, by omega⟩

theorem attempt_mem_rowTraceSeg {i : Nat} {L : LoopCtx} {a : Nat} {row : Row}
    (h : Ev.attempt i ∈ rowTraceSeg L a row) :
    rowEmailInvalid L.emailColumn row = false ∧ i = a := by
  rw [rowTraceSeg] at h
  by_cases hinv : rowEmailInvalid L.emailColumn row = true
  · rw [if_pos hinv] at h
    simp at h
  · rw [if_neg hinv] at h
    refine ⟨by simpa using hinv, ?_⟩
    rcases List.mem_cons.mp h with h1 | h2
    · injection h1
    · by_cases hd : a < L.n - 1 <;> simp [hd] at h2

theorem attempt_mem_processRows {i : Nat} (L : LoopCtx) :
    ∀ (rows : List Row) (k : Nat) (st : LoopState),
      Ev.attempt i ∈ (processRows L k rows st).trace →
      Ev.attempt i ∈ st.trace
        ∨ ∃ j row, rows.get? j = some row ∧ i = k + j
            ∧ rowEmailInvalid L.emailColumn row = false := by
  intro rows k st h
  rw [processRows_trace] at h
  rcases List.mem_append.mp h with h0 | h1
  · exact Or.inl h0
  · rcases List.mem_flatMap.mp h1 with ⟨p, hp, hseg⟩
    rcases mem_idxFrom rows k hp with ⟨j, hj1, hj2⟩
    rcases attempt_mem_rowTraceSeg hseg with ⟨hval, hia⟩
    exact Or.inr ⟨j, p.2, hj1, by omega, hval⟩

theorem mem_errors_processRow {x : List Char} (L : LoopCtx) (i : Nat) (row : Row)
    (st : LoopState) (hx : x ∈ st.errors) : x ∈ (processRow L i row st).errors := by
  rw [processRow]
  by_cases hinv : rowEmailInvalid L.emailColumn row = true
  · rw [if_pos hinv]
    exact List.mem_append_left _ hx
  · rw [if_neg hinv]
    cases hsend : L.send i (mailOptionsFor L row ((lookupCol L.emailColumn row).getD [])) <;>
      cases hlog : L.logOk i <;> by_cases hd : i < L.n - 1 <;>
      simp [hsend, hlog, hd, List.mem_append, hx]

theorem mem_errors_processRows {x : List Char} (L : LoopCtx) :
    ∀ (rows : List Row) (k : Nat) (st : LoopState),
      x ∈ st.errors → x ∈ (processRows L k rows st).errors := by
  intro rows
  induction rows with
  | nil => intro k st hx; exact hx
  | cons row rest ih =>
    intro k st hx
    rw [processRows]
    exact ih (k + 1) (processRow L k row st) (mem_errors_processRow L k row st hx)

theorem invalidMsg_mem_processRows (L : LoopCtx) :
    ∀ (rows : List Row) (k j : Nat) (st : LoopState) (row : Row),
      rows.get? j = some row →
      rowEmailInvalid L.emailColumn row = true →
      invalidEmailMsg (k + j) (lookupCol L.emailColumn row)
        ∈ (processRows L k rows st).errors := by
  intro rows
  induction rows with
  | nil => intro k j st row h; simp at h
  | cons r rest ih =>
    intro k j st row hget hinv
    cases j with
    | zero =>
      simp only [List.get?_cons_zero, Option.some.injEq] at hget
      subst hget
      rw [processRows]
      apply mem_errors_processRows
      rw [Nat.add_zero, processRow, if_pos hinv]
      simp
    | succ j' =>
      simp only [List.get?_cons_succ] at hget
      rw [processRows]
      have h := ih (k + 1) j' (processRow L k r st) row hget hinv
      rw [show k + (j' + 1) = k + 1 + j' from by omega]
      exact h

/-- Claim C5: a row whose resolved e-mail value is missing, empty or
invalid yields a failed outcome whose error line carries the 1-based,
header-offset row number (`Row ${i + 2}`) and the malformed value, and
`transporter.sendMail` is never invoked for that row: no `attempt i`
event appears in the whole request's trace. -/
theorem c5_invalid_rows_never_sent (C : Collab) (req : SendRequest) (P : PreparedBatch)
    (i : Nat) (row : Row)
    (hprep : preparePipeline C req = Except.ok P)
    (hget : P.recipients.get? i = some row)
    (hinv : rowEmailInvalid P.emailColumn row = true) :
    Ev.attempt i ∉ (bulkSendHandler C req).trace
    ∧ ∃ s f t errs,
        (bulkSendHandler C req).response = HandlerResponse.okResponse s f t (some errs)
        ∧ invalidEmailMsg i (lookupCol P.emailColumn row) ∈ errs := by
  rw [bulkSendHandler.eq_def, hprep]
  dsimp only
  have hmem := invalidMsg_mem_processRows (mkLoopCtx C req P) P.recipients 0 i
      initLoopState row hget hinv
  rw [Nat.zero_add] at hmem
  constructor
  · intro hat
    rcases attempt_mem_processRows (mkLoopCtx C req P) P.recipients 0 initLoopState hat with
      h0 | ⟨j, row', hj, hij, hval⟩
    · simp [initLoopState] at h0
    · have hji : j = i := by omega
      subst hji
      rw [hget] at hj
      injection hj with hj
      subst hj
      have hval2 : rowEmailInvalid P.emailColumn row = false := hval
      rw [hval2] at hinv
      exact Bool.noConfusion hinv
  · refine ⟨(processRows (mkLoopCtx C req P) 0 P.recipients initLoopState).success,
      (processRows (mkLoopCtx C req P) 0 P.recipients initLoopState).failed,
      P.recipients.length,
      (processRows (mkLoopCtx C req P) 0 P.recipients initLoopState).errors, ?_, hmem⟩
    have hne :
        (processRows (mkLoopCtx C req P) 0 P.recipients initLoopState).errors.isEmpty
          = false := by
      cases herrs : (processRows (mkLoopCtx C req P) 0 P.recipients initLoopState).errors with
      | nil => rw [herrs] at hmem; simp at hmem
      | cons a as => simp
    rw [hne]
    simp

/-- Witness for C5: in the demo request, row index 1 holds the address
`"bad"`; the batch trace contains no `attempt 1` event and the response
carries its `Row 3` error line. -/
theorem c5_invalid_rows_never_sent_witness :
    Ev.attempt 1 ∉ (bulkSendHandler demoCollab demoReq).trace
    ∧ ∃ s f t errs,
        (bulkSendHandler demoCollab demoReq).response
          = HandlerResponse.okResponse s f t (some errs)
        ∧ invalidEmailMsg 1
            (lookupCol demoPrepared.emailColumn demoRows[1]) ∈ errs :=
  c5_invalid_rows_never_sent demoCollab demoReq demoPrepared 1
    [("Email".toList, "bad".toList), ("Name".toList, "Bob".toList)] rfl rfl (by decide)

/-- Claim C8, corrected and amended: the loop's observable trace is,
row by row, empty for a rejected row and `attempt i` followed by one
delay — omitted exactly when the row is the file's final one — for an
attempted row.  Hence exactly one delay separates consecutive send
attempts and none precedes the first, but the delay is tied to the row
position, not to the attempt being the last: a delay does trail the
final send attempt whenever some later row is rejected. -/
theorem c8_delay_amended (L : LoopCtx) (rows : List Row) :
    (processRows L 0 rows initLoopState).trace
      = (idxFrom 0 rows).flatMap (fun p => rowTraceSeg L p.1 p.2) := by
  rw [processRows_trace]
  rfl

/-- Counterexample to claim C8 as stated: a two-row batch whose second
row is invalid produces the trace `[attempt 0, delay]` — the delay
falls after the last (only) send attempt, which the claim forbids. -/
theorem c8_delay_counterexample :
    (processRows demoCtx8 0 rows8 initLoopState).trace = [Ev.attempt 0, Ev.delayStep]
    ∧ (processRows demoCtx8 0 rows8 initLoopState).trace.getLast? = some Ev.delayStep :=
  ⟨by decide, by decide⟩

theorem processRow_logOk_respPart (L : LoopCtx) (g : Nat → Bool) (i : Nat) (row : Row) :
    ∀ (st st' : LoopState), respPart st = respPart st' →
      respPart (processRow L i row st)
        = respPart (processRow { L with logOk := g } i row st') := by
  obtain ⟨sendF, logOk1, acct, atts, subj, bh, fbh, fbt, col, n⟩ := L
  intro st st' h
  obtain ⟨s1, f1, e1, l1, t1⟩ := st
  obtain ⟨s2, f2, e2, l2, t2⟩ := st'
  simp only [respPart, LoopState.mk.injEq, and_true, true_and] at h
  obtain ⟨hs, hf, he, ht⟩ := h
  subst hs; subst hf; subst he; subst ht
  dsimp only [processRow, mailOptionsFor, personalizedSubject, successLog, failLog]
  by_cases hinv : rowEmailInvalid col row = true
  · simp only [hinv, if_true]
    rfl
  · have hinv' : rowEmailInvalid col row = false := by simpa using hinv
    simp only [hinv', Bool.false_eq_true, if_false]
    by_cases hd : i < n - 1
    all_goals first
      | rw [if_pos hd, if_pos hd]
      | rw [if_neg hd, if_neg hd]
    all_goals
      cases hlog : logOk1 i <;> cases hlog2 : g i <;>
        simp only [hlog, hlog2, eq_self_iff_true, if_true, Bool.false_eq_true, if_false] <;>
        split <;> simp [respPart]
theorem processRows_logOk_respPart (L : LoopCtx) (g : Nat → Bool) :
    ∀ (rows : List Row) (k : Nat) (st st' : LoopState), respPart st = respPart st' →
      respPart (processRows L k rows st)
        = respPart (processRows { L with logOk := g } k rows st') := by
  intro rows
  induction rows with
  | nil => intro k st st' h; exact h
  | cons row rest ih =>
    intro k st st' h
    rw [processRows, processRows]
    exact ih (k + 1) _ _ (processRow_logOk_respPart L g k row st st' h)

theorem preparePipeline_ext {C C' : Collab} (req : SendRequest)
    (hA : C.accountByKey = C'.accountByKey) (hT : C.templateById = C'.templateById)
    (hP : C.prepareAtts = C'.prepareAtts) (hF : C.formatHtml = C'.formatHtml) :
    preparePipeline C req = preparePipeline C' req := by
  rw [preparePipeline.eq_def, preparePipeline.eq_def, hA, hT, hP, hF]

/-- Claim C6: per-row failures are isolated.  With the pre-loop
collaborators fixed (account lookup, template lookup, attachment
preparation, HTML formatting), changing the transport and the logging
oracles can never turn the BatchResult answer into an error response,
nor change its total; with the transport also fixed, changing only the
logging oracle (e.g. every `EmailLog.create` failing) leaves the whole
response unchanged — only the aborts of account resolution, template
resolution and file parsing, all before the loop, decide between error
and BatchResult.  Moreover a row whose transport send rejects is
recorded as a failed outcome with its `Row ${i + 2} (...)` error line,
and the loop goes on. -/
theorem c6_failure_isolation :
    (∀ (C C' : Collab) (req : SendRequest),
      C.accountByKey = C'.accountByKey → C.templateById = C'.templateById →
      C.prepareAtts = C'.prepareAtts → C.formatHtml = C'.formatHtml →
      isOkB (bulkSendHandler C req).response = isOkB (bulkSendHandler C' req).response
      ∧ totalOf (bulkSendHandler C req).response = totalOf (bulkSendHandler C' req).response
      ∧ (C.send = C'.send →
          (bulkSendHandler C req).response = (bulkSendHandler C' req).response))
    ∧ ∀ (L : LoopCtx) (i : Nat) (row : Row) (st : LoopState) (m : List Char),
        rowEmailInvalid L.emailColumn row = false →
        L.send i (mailOptionsFor L row ((lookupCol L.emailColumn row).getD [])) = some m →
        (processRow L i row st).failed = st.failed + 1
        ∧ sendFailMsg i ((lookupCol L.emailColumn row).getD []) m
            ∈ (processRow L i row st).errors := by
  constructor
  · intro C C' req hA hT hP hF
    have hprep := preparePipeline_ext req hA hT hP hF
    rcases hp : preparePipeline C req with e | P
    · have hp' : preparePipeline C' req = Except.error e := by rw [← hprep]; exact hp
      obtain ⟨status, msg⟩ := e
      rw [bulkSendHandler.eq_def, bulkSendHandler.eq_def, hp, hp']
      exact ⟨rfl, rfl, fun _ => rfl⟩
    · have hp' : preparePipeline C' req = Except.ok P := by rw [← hprep]; exact hp
      rw [bulkSendHandler.eq_def, bulkSendHandler.eq_def, hp, hp']
      dsimp only
      refine ⟨rfl, rfl, ?_⟩
      intro hSend
      have hctx : mkLoopCtx C' req P = { mkLoopCtx C req P with logOk := C'.logOk } := by
        simp [mkLoopCtx, hSend]
      rw [hctx]
      have hrp := processRows_logOk_respPart (mkLoopCtx C req P) C'.logOk P.recipients 0
          initLoopState initLoopState rfl
      have h1 := congrArg LoopState.success hrp
      have h2 := congrArg LoopState.failed hrp
      have h3 := congrArg LoopState.errors hrp
      have hsucc : (processRows (mkLoopCtx C req P) 0 P.recipients initLoopState).success
          = (processRows { mkLoopCtx C req P with logOk := C'.logOk } 0 P.recipients
              initLoopState).success := h1
      have hfail : (processRows (mkLoopCtx C req P) 0 P.recipients initLoopState).failed
          = (processRows { mkLoopCtx C req P with logOk := C'.logOk } 0 P.recipients
              initLoopState).failed := h2
      have herr : (processRows (mkLoopCtx C req P) 0 P.recipients initLoopState).errors
          = (processRows { mkLoopCtx C req P with logOk := C'.logOk } 0 P.recipients
              initLoopState).errors := h3
      rw [hsucc, hfail, herr]
  · intro L i row st m hval hsend
    rw [processRow, if_neg (by simp [hval])]
    dsimp only
    simp only [hsend]
    cases hlog : L.logOk i <;> by_cases hd : i < L.n - 1 <;>
      simp [hlog, hd]

/-- Witness for C6: the demo request's response is unchanged when every
`EmailLog.create` rejects, and a rejecting transport marks the valid
demo row failed with its error line. -/
theorem c6_failure_isolation_witness :
    (isOkB (bulkSendHandler demoCollab demoReq).response
        = isOkB (bulkSendHandler demoCollabNoLog demoReq).response
      ∧ totalOf (bulkSendHandler demoCollab demoReq).response
        = totalOf (bulkSendHandler demoCollabNoLog demoReq).response
      ∧ (demoCollab.send = demoCollabNoLog.send →
          (bulkSendHandler demoCollab demoReq).response
            = (bulkSendHandler demoCollabNoLog demoReq).response))
    ∧ ((processRow demoCtxFail 0 row8a initLoopState).failed = initLoopState.failed + 1
       ∧ sendFailMsg 0 ((lookupCol demoCtxFail.emailColumn row8a).getD []) "boom".toList
           ∈ (processRow demoCtxFail 0 row8a initLoopState).errors) :=
  ⟨c6_failure_isolation.1 demoCollab demoCollabNoLog demoReq rfl rfl rfl rfl,
   c6_failure_isolation.2 demoCtxFail 0 row8a initLoopState "boom".toList (by decide) rfl⟩

theorem preparePipeline_404 {C : Collab} {req : SendRequest} {msg : List Char}
    (h : preparePipeline C req = Except.error (404, msg)) :
    resolveAccount C.accountByKey req.emailAccountId = none := by
  rw [preparePipeline.eq_def] at h
  dsimp only at h
  iterate 12 (all_goals try split at h)
  all_goals simp_all

/-- Claim C4: e-mail column resolution.  Whenever some header of the
first row has trimmed, lower-cased text `"email"` or `"e-mail"`,
`findEmailColumn` returns such a header (whatever its position or
case); when no header matches it returns `null` and — all earlier
validations passing — the whole request is answered with the 400
missing-column error, with no positional fallback. -/
theorem c4_email_column_resolution :
    (∀ row : Row,
      ((∃ k, k ∈ row.map Prod.fst ∧ isEmailHeaderKey k = true) →
        ∃ k, findEmailColumn row = some k ∧ k ∈ row.map Prod.fst
          ∧ isEmailHeaderKey k = true)
      ∧ (findEmailColumn row = none → ∀ k ∈ row.map Prod.fst, isEmailHeaderKey k = false))
    ∧ ∀ (C : Collab) (req : SendRequest) (raw : Except (List Char) (List Row))
        (firstRow : Row) (rest : List Row) (acct : Account),
        req.file = some raw →
        ¬ req.emailAccountId.isEmpty = true →
        ¬ (trimChars req.subject).isEmpty = true →
        ¬ (trimChars (finalBodyTextOf req)).isEmpty = true →
        resolveAccount C.accountByKey req.emailAccountId = some acct →
        (acct.type = "smtp".toList ∨ acct.type = "both".toList) →
        parseFileM raw = Except.ok (firstRow :: rest) →
        findEmailColumn firstRow = none →
        (bulkSendHandler C req).response
          = HandlerResponse.errorResponse 400 msgEmailColNotFound := by
  constructor
  · intro row
    constructor
    · rintro ⟨k, hk, hek⟩
      have hsome : (findEmailColumn row).isSome := by
        rw [findEmailColumn, List.find?_isSome]
        exact ⟨k, hk, hek⟩
      rcases hfind : findEmailColumn row with _ | k0
      · rw [hfind] at hsome
        simp at hsome
      · rw [findEmailColumn] at hfind
        exact ⟨k0, rfl, List.mem_of_find?_eq_some hfind, List.find?_some hfind⟩
    · intro hnone k hk
      by_contra hek
      rw [Bool.not_eq_false] at hek
      have hsome : (findEmailColumn row).isSome := by
        rw [findEmailColumn, List.find?_isSome]
        exact ⟨k, hk, hek⟩
      rw [hnone] at hsome
      simp at hsome
  · intro C req raw firstRow rest acct hfile h1 h2 h3 hacct htype hparse hcol
    have hp : preparePipeline C req = Except.error (400, msgEmailColNotFound) := by
      rw [preparePipeline, hfile]
      dsimp only
      rw [if_neg h1, if_neg h2, if_neg h3]
      simp only [hacct]
      rw [if_pos htype]
      simp only [hparse, hcol]
    rw [bulkSendHandler.eq_def, hp]

/-- Witness for C4: the demo request with a `Name`-only upload is
answered with the 400 missing-column error. -/
theorem c4_email_column_resolution_witness :
    (bulkSendHandler demoCollab demoReqNoCol).response
      = HandlerResponse.errorResponse 400 msgEmailColNotFound :=
  c4_email_column_resolution.2 demoCollab demoReqNoCol
    (Except.ok [[("Name".toList, "Al".toList)]]) [("Name".toList, "Al".toList)] []
    demoAccount rfl (by decide) (by decide) (by decide) (by decide) (by decide) rfl
    (by decide)

/-- Claim C10: account resolution retries with the integer prefix.
`parseInt("12abc", 10) = 12`; when the verbatim `findByPk` lookup of
`"12abc"` misses but the numeric key `12` hits, the account is
resolved; in general the resolution misses exactly when the verbatim
lookup misses and the `parseInt`-keyed lookup (if `parseInt` is not
`NaN`) misses too; and a 404 response implies the resolution missed. -/
theorem c10_account_double_lookup :
    parseIntDec "12abc".toList = some 12
    ∧ (∀ (byKey : AccountKey → Option Account) (acct : Account),
        byKey (AccountKey.str "12abc".toList) = none →
        byKey (AccountKey.num 12) = some acct →
        resolveAccount byKey "12abc".toList = some acct)
    ∧ (∀ (byKey : AccountKey → Option Account) (id : List Char),
        resolveAccount byKey id = none ↔
          (byKey (AccountKey.str id) = none
           ∧ ∀ n : Int, parseIntDec id = some n → byKey (AccountKey.num n) = none))
    ∧ ∀ (C : Collab) (req : SendRequest) (m : List Char),
        (bulkSendHandler C req).response = HandlerResponse.errorResponse 404 m →
        resolveAccount C.accountByKey req.emailAccountId = none := by
  refine ⟨by decide, ?_, ?_, ?_⟩
  · intro byKey acct h1 h2
    rw [resolveAccount.eq_def]
    simp only [h1]
    rw [show parseIntDec "12abc".toList = some 12 from by decide]
    exact h2
  · intro byKey id
    cases hstr : byKey (AccountKey.str id) with
    | some a => simp [resolveAccount, hstr]
    | none =>
      cases hint : parseIntDec id with
      | none => simp [resolveAccount, hstr, hint]
      | some n => simp [resolveAccount, hstr, hint]
  · intro C req m hresp
    rcases hp : preparePipeline C req with e | P
    · obtain ⟨status, msg⟩ := e
      rw [bulkSendHandler.eq_def, hp] at hresp
      simp only [HandlerResponse.errorResponse.injEq] at hresp
      obtain ⟨hstatus, hmsg⟩ := hresp
      subst hstatus
      exact preparePipeline_404 hp
    · rw [bulkSendHandler.eq_def, hp] at hresp
      simp at hresp

/-- Witness for C10: against the demo account database, the id
`"12abc"` misses verbatim but resolves through its integer prefix
`12`. -/
theorem c10_account_double_lookup_witness :
    resolveAccount demoByKey "12abc".toList = some demoAccount :=
  c10_account_double_lookup.2.1 demoByKey demoAccount (by decide) (by decide)

end BulkEmail
